import Mathlib

/-!
Verification development for the Threat Bus repository (in-memory backbone,
RabbitMQ backbone, and Zeek app plugin).  Python strings are embedded as
`List Char`; Python's `str.split`, `str.strip`, `str.startswith`,
`str.endswith` and slicing are embedded below.  Stateful registry
dictionaries (`defaultdict(set)` / `dict`) are embedded as association
lists with first-key lookup/update, matching unique-key dict semantics.
Fallible code (tuple unpacking that can raise `ValueError`) returns
`Except`.
-/

/-- Characters of a string literal (embedding of a Python `str` value). -/
def chars (s : String) : List Char := s.toList

/-- The single-quote character (code point 39), written via `Char.ofNat`. -/
def quoteChar : Char := Char.ofNat 39

/-- `quoted v` is the Python string `"'" + v + "'"`. -/
def quoted (v : List Char) : List Char := quoteChar :: (v ++ [quoteChar])

/-- Embedding of Python `s.split(sep)` for a one-character separator:
splits at every occurrence, keeping empty pieces. -/
def pysplit (sep : Char) : List Char → List (List Char)
  | [] => [[]]
  | c :: rest =>
    if c = sep then [] :: pysplit sep rest
    else
      match pysplit sep rest with
      | [] => [[c]]
      | h :: t => (c :: h) :: t

/-- ASCII whitespace test used by Python `str.strip()` (our inputs are ASCII). -/
def isspace (c : Char) : Bool :=
  (c == ' ') || (c == Char.ofNat 9) || (c == Char.ofNat 10) ||
  (c == Char.ofNat 13) || (c == Char.ofNat 11) || (c == Char.ofNat 12)

/-- Embedding of Python `s.strip()`: drop whitespace from both ends. -/
def pystrip (s : List Char) : List Char :=
  (((s.dropWhile isspace).reverse.dropWhile isspace).reverse)

/-- Embedding of Python `s.startswith(p)` (byte/char-wise). -/
def pystartswith : List Char → List Char → Bool
  | [], _ => true
  | _ :: _, [] => false
  | c :: p, d :: s => if c = d then pystartswith p s else false

/-- Embedding of Python `s.endswith(p)`. -/
def pyendswith (p s : List Char) : Bool := pystartswith p.reverse s.reverse

/-- Embedding of the Python slice `s[1:-1]`. -/
def pyslice1m1 (s : List Char) : List Char := (s.drop 1).dropLast

/-- A Broker (Zeek transport) value carried as an event argument. -/
inductive BrokerVal where
  | str (s : List Char)
  | count (n : Nat)
deriving DecidableEq

/-- Python truthiness of a Broker value (`if topic:`). -/
def truthy : BrokerVal → Bool
  | .str s => !s.isEmpty
  | .count n => n != 0

/-- A `broker.zeek.Event`: a name plus positional arguments. -/
structure ZeekEvent where
  name : List Char
  args : List BrokerVal
deriving DecidableEq

/-- One comparison triple of the stix2patterns inspection result:
`(object_path, operator, value)`.  The inspector always produces
3-tuples, so the source's `len(...) == 3` check is an invariant here. -/
structure Comparison where
  objectPath : List (List Char)
  op : List Char
  value : List Char
deriving DecidableEq

/-- The result of `Pattern(pattern_str).inspect()` from the external
stix2patterns library: comparisons grouped by cybox object type, plus
observation operators and qualifiers. -/
structure PatternData where
  comparisons : List (List Char × List Comparison)
  observation_ops : List (List Char)
  qualifiers : List (List Char)
deriving DecidableEq

/-- A STIX-2 Indicator as used by the Zeek message mapping.  `patternData`
is the inspection of `pattern` by the external stix2patterns parser, which
is supplied alongside the raw pattern string.  `x_threatbus_update` holds
the optional `x_threatbus_update` custom property. -/
structure Indicator where
  id : List Char
  created : List Char
  pattern : List Char
  patternData : PatternData
  x_threatbus_update : Option (List Char)
deriving DecidableEq

/-- Embedding of `is_point_equality_ioc` from
threatbus_zeek/message_mapping.py: requires no observation operators, no
qualifiers, exactly one cybox object type, and that the FIRST comparison
of that type is an equality.  (The source indexes `comparisons[types[0]][0]`,
i.e. it never looks at a second comparison of the same type.) -/
def is_point_equality_ioc (il : PatternData) : Bool :=
  (il.observation_ops.length == 0) &&
  (il.qualifiers.length == 0) &&
  (il.comparisons.length == 1) &&
  (match il.comparisons with
   | (_, c :: _) :: _ => c.op == chars "="
   | _ => false)

/-- The `zeek_intel_type_map` table from message_mapping.py. -/
def zeek_intel_type_map : List (List Char × List Char) :=
  [ (chars "domain-name:value", chars "DOMAIN")
  , (chars "email-addr:value", chars "EMAIL")
  , (chars "file:name", chars "FILE_NAME")
  , (chars "file:hashes.MD5", chars "FILE_HASH")
  , (chars "file:hashes." ++ quoted (chars "SHA-1"), chars "FILE_HASH")
  , (chars "file:hashes." ++ quoted (chars "SHA-256"), chars "FILE_HASH")
  , (chars "file:hashes." ++ quoted (chars "SHA-512"), chars "FILE_HASH")
  , (chars "file:hashes." ++ quoted (chars "SHA3-256"), chars "FILE_HASH")
  , (chars "file:hashes." ++ quoted (chars "SHA3-512"), chars "FILE_HASH")
  , (chars "file:hashes.SSDEEP", chars "FILE_HASH")
  , (chars "file:hashes.TLSH", chars "FILE_HASH")
  , (chars "ipv4-addr:value", chars "ADDR")
  , (chars "ipv6-addr:value", chars "ADDR")
  , (chars "software:name", chars "SOFTWARE")
  , (chars "url:value", chars "URL")
  , (chars "user:user_id", chars "USER_NAME")
  , (chars "user:account_login", chars "USER_NAME")
  , (chars "x509-certificate:hashes." ++ quoted (chars "SHA-1"), chars "CERT_HASH") ]

/-- Python `dict.get(key, None)` over an association list with unique keys. -/
def dictGet : List (List Char × List Char) → List Char → Option (List Char)
  | [], _ => none
  | (k, v) :: rest, key => if k = key then some v else dictGet rest key

/-- Embedding of `re.sub(r"^https?://", "", s)`: the anchored regex removes
at most one leading scheme, case-sensitively, and touches nothing else. -/
def stripScheme (s : List Char) : List Char :=
  if pystartswith (chars "http://") s then s.drop 7
  else if pystartswith (chars "https://") s then s.drop 8
  else s

/-- Embedding of the truthiness of `re.match(".+/.+", v)`: there is a
decomposition of `v` into a nonempty run of non-newline characters, a
slash, and at least one further non-newline character (`.` in Python
regexes matches anything except a newline; `re.match` anchors at the
start only). -/
def reSlash (v : List Char) : Bool :=
  (List.range v.length).any (fun i =>
    decide (1 ≤ i) && decide (i + 1 < v.length) && (v.getD i ' ' == '/')
      && ((v.take i).all (fun c => !(c == Char.ofNat 10)))
      && (!(v.getD (i + 1) ' ' == Char.ofNat 10)))

/-- Embedding of the un-quoting step of `map_indicator_to_broker_event`:
`if ioc_value.startswith("'") and ioc_value.endswith("'"): ioc_value = ioc_value[1:-1]`. -/
def unquote (s : List Char) : List Char :=
  if pystartswith [quoteChar] s && pyendswith [quoteChar] s then pyslice1m1 s else s

/-- The value of `threatbus.data.Operation.REMOVE.value` (the threatbus.data
module is outside the provided sources; the enum value is an opaque token,
only compared for equality). -/
def operationRemoveValue : List Char := chars "remove"

/-- Python exceptions that the embedded code can raise. -/
inductive PyError where
  | valueError
deriving DecidableEq

/-- The Zeek `operation` field: `"REMOVE"` when the indicator carries the
`x_threatbus_update` property equal to `Operation.REMOVE.value`, else `"ADD"`. -/
def zeekOperation (ind : Indicator) : List Char :=
  if ind.x_threatbus_update = some operationRemoveValue then chars "REMOVE" else chars "ADD"

/-- Construction of the final Broker event of `map_indicator_to_broker_event`:
`broker.zeek.Event(f"{module_namespace}::intel", (created, id, type, value, operation))`. -/
def mkIntelEvent (ind : Indicator) (module_namespace zt v : List Char) :
    Except PyError (Option ZeekEvent) :=
  .ok (some ⟨module_namespace ++ chars "::intel",
    [.str ind.created, .str ind.id, .str zt, .str v, .str (zeekOperation ind)]⟩)

/-- The tail of `map_indicator_to_broker_event` after object path and value
have been extracted: table lookup, URL scheme stripping, ADDR→SUBNET
elevation, and event construction. -/
def mapPathValue (ind : Indicator) (module_namespace object_path ioc_value : List Char) :
    Except PyError (Option ZeekEvent) :=
  match dictGet zeek_intel_type_map object_path with
  | none => .ok none
  | some zt =>
    if zt = chars "URL" then mkIntelEvent ind module_namespace zt (stripScheme ioc_value)
    else if zt = chars "ADDR" ∧ reSlash ioc_value = true then
      mkIntelEvent ind module_namespace (chars "SUBNET") ioc_value
    else mkIntelEvent ind module_namespace zt ioc_value

/-- The split-and-unpack step `(object_path, ioc_value) = indicator.pattern[1:-1].split("=")`:
Python tuple unpacking raises `ValueError` unless the split produced
exactly two pieces; each piece is then stripped, and the value unquoted. -/
def map_after_split (ind : Indicator) (module_namespace : List Char) :
    List (List Char) → Except PyError (Option ZeekEvent)
  | [rawPath, rawValue] =>
    mapPathValue ind module_namespace (pystrip rawPath) (unquote (pystrip rawValue))
  | _ => .error .valueError

/-- Embedding of `map_indicator_to_broker_event` from message_mapping.py.
(The `type(indicator) is not Indicator` guard is vacuous here since the
argument is typed.)  Order follows the source: point-equality check first,
then split/strip/unquote, table lookup, post-processing, event construction. -/
def map_indicator_to_broker_event (ind : Indicator) (module_namespace : List Char) :
    Except PyError (Option ZeekEvent) :=
  if is_point_equality_ioc ind.patternData then
    map_after_split ind module_namespace (pysplit '=' (pyslice1m1 ind.pattern))
  else .ok none

/-- A management instruction produced by `map_management_message`:
`Subscription(topic, snapshot_delta)` or `Unsubscription(topic)`. -/
inductive MgmtMsg where
  | sub (topic snapshot : BrokerVal)
  | unsub (topic : BrokerVal)
deriving DecidableEq

/-- The namespace actually compared against: the source appends `"::"` to a
non-empty module namespace and leaves an empty one alone
(`module_namespace = module_namespace + "::" if module_namespace else ""`). -/
def adjustedNS (module_namespace : List Char) : List Char :=
  if module_namespace = [] then [] else module_namespace ++ chars "::"

/-- Embedding of `name[name.startswith(module_namespace) and len(module_namespace):]`:
when the (adjusted) namespace is a leading piece of `name` it is dropped,
otherwise the Python expression evaluates to `False` = 0 and the name is
kept whole. -/
def stripName (module_namespace name : List Char) : List Char :=
  if pystartswith (adjustedNS module_namespace) name then
    name.drop (adjustedNS module_namespace).length
  else name

/-- Embedding of `map_management_message` from message_mapping.py. -/
def map_management_message (ev : ZeekEvent) (module_namespace : List Char) : Option MgmtMsg :=
  if stripName module_namespace ev.name = chars "subscribe" ∧ ev.args.length = 2 then
    match ev.args with
    | [topic, snapshot_delta] =>
      if truthy topic then some (.sub topic snapshot_delta) else none
    | _ => none
  else if stripName module_namespace ev.name = chars "unsubscribe" ∧ ev.args.length = 1 then
    match ev.args with
    | [topic] => if truthy topic then some (.unsub topic) else none
    | _ => none
  else none

/-- The lowercase alphabet `string.ascii_lowercase`. -/
def lowercaseLetters : List Char := chars "abcdefghijklmnopqrstuvwxyz"

/-- Embedding of `rand_string(length)` from the Zeek plugin: each position
draws one letter; the draws are supplied by the stream `g` (embedding of
`random.choice(letters)`). -/
def rand_string (n : Nat) (g : Nat → Fin 26) : List Char :=
  (List.range n).map (fun i => lowercaseLetters.getD (g i).val 'a')

/-- A `Subscription` management task as carried into `manage_subscription`. -/
structure SubscriptionMsg where
  topic : List Char
  snapshot : Int

/-- An `Unsubscription` management task. -/
structure UnsubscriptionMsg where
  topic : List Char

/-- Python `dict[key] = value` on the Zeek plugin's `subscriptions` map
(`p2p_topic => queue`, queues named by `Nat` identifiers). -/
def dictInsertNat : List (List Char × Nat) → List Char → Nat → List (List Char × Nat)
  | [], t, q => [(t, q)]
  | (k, v) :: rest, t, q =>
    if k = t then (k, q) :: rest else (k, v) :: dictInsertNat rest t q

/-- Python `dict.get(key, None)` on the Zeek plugin's `subscriptions` map. -/
def dictGetNat : List (List Char × Nat) → List Char → Option Nat
  | [], _ => none
  | (k, v) :: rest, t => if k = t then some v else dictGetNat rest t

/-- Python `del dict[key]` on the Zeek plugin's `subscriptions` map. -/
def dictRemoveNat : List (List Char × Nat) → List Char → List (List Char × Nat)
  | [], _ => []
  | (k, v) :: rest, t => if k = t then rest else (k, v) :: dictRemoveNat rest t

/-- Everything the `Subscription` branch of `manage_subscription` produces:
the p2p topic, the acknowledgment event published on threatbus/manage, the
updated local map, and the arguments passed to `subscribe_callback`. -/
structure SubscriptionResult where
  p2p_topic : List Char
  ack : ZeekEvent
  subs : List (List Char × Nat)
  cb_topic : List Char
  cb_queue : Nat
  cb_snapshot : Int

/-- Embedding of the `Subscription` branch of `manage_subscription` in the
Zeek plugin: `p2p_topic = task.topic + rand_string(10)`, an
`subscription_acknowledged` acknowledgment carrying the p2p topic, the
`subscribe_callback(task.topic, p2p_q, task.snapshot)` call, and
`subscriptions[p2p_topic] = p2p_q`.  `newq` names the fresh `JoinableQueue`. -/
def manage_subscription_sub (module_namespace : List Char)
    (subs : List (List Char × Nat)) (task : SubscriptionMsg)
    (g : Nat → Fin 26) (newq : Nat) : SubscriptionResult :=
  { p2p_topic := task.topic ++ rand_string 10 g
  , ack := ⟨module_namespace ++ chars "::subscription_acknowledged",
            [.str (task.topic ++ rand_string 10 g)]⟩
  , subs := dictInsertNat subs (task.topic ++ rand_string 10 g) newq
  , cb_topic := task.topic
  , cb_queue := newq
  , cb_snapshot := task.snapshot }

/-- Result of the `Unsubscription` branch of `manage_subscription`: the
updated local map and, when the p2p topic was known, the
`unsubscribe_callback(threatbus_topic, p2p_q)` invocation. -/
structure UnsubResult where
  subs : List (List Char × Nat)
  callback : Option (List Char × Nat)
deriving DecidableEq

/-- Embedding of the `Unsubscription` branch of `manage_subscription`:
`threatbus_topic = task.topic[:len(task.topic) - 10]`; an unknown p2p
topic is silently ignored. -/
def manage_subscription_unsub (subs : List (List Char × Nat))
    (task : UnsubscriptionMsg) : UnsubResult :=
  match dictGetNat subs task.topic with
  | some q =>
    ⟨dictRemoveNat subs task.topic,
     some (task.topic.take (task.topic.length - 10), q)⟩
  | none => ⟨subs, none⟩

/-- The four canonical message kinds moved by the backbones (the classes
`Intel`, `Sighting`, `SnapshotRequest`, `SnapshotEnvelope` of threatbus.data). -/
inductive MsgType where
  | intel
  | sighting
  | snapshotrequest
  | snapshotenvelope
deriving DecidableEq

/-- `type(msg).__name__.lower()` for each message class. -/
def typeNameLower : MsgType → List Char
  | .intel => chars "intel"
  | .sighting => chars "sighting"
  | .snapshotrequest => chars "snapshotrequest"
  | .snapshotenvelope => chars "snapshotenvelope"

/-- The canonical topic computed by the in-memory backbone's `provision`
worker: `f"tenzir/threatbus/{type(msg).__name__.lower()}"`. -/
def inmemTopicOf (m : MsgType) : List Char :=
  chars "tenzir/threatbus/" ++ typeNameLower m

/-- The canonical topic each RabbitMQ consumer callback passes to
`provision`: `__provision_intel` uses "threatbus/intel",
`__provision_sighting` uses "threatbus/sightings",
`__provision_snapshot_request` uses "threatbus/snapshotrequest",
`__provision_snapshot_envelope` uses "threatbus/snapshotenvelope". -/
def rabbitTopicOf : MsgType → List Char
  | .intel => chars "threatbus/intel"
  | .sighting => chars "threatbus/sightings"
  | .snapshotrequest => chars "threatbus/snapshotrequest"
  | .snapshotenvelope => chars "threatbus/snapshotenvelope"

/-- The queues receiving one provisioned message, in registry order: the
shared fan-out loop `for t in filter(lambda t: topic.startswith(t), keys): for outq in
subscriptions[t]: outq.put(msg)` of both backbones.  The registry is an
association list `originating topic → set of queue ids`. -/
def provisionDeliveries : List (List Char × List Nat) → List Char → List Nat
  | [], _ => []
  | (t, qs) :: rest, topic =>
    (if pystartswith t topic then qs else []) ++ provisionDeliveries rest topic

/-- `defaultdict(set)` access-and-update: apply `f` to the set stored at
`t`, materializing an empty set first when the key is absent (as a Python
`defaultdict` does on any access). -/
def dictUpdate : List (List Char × List Nat) → List Char →
    (List Nat → List Nat) → List (List Char × List Nat)
  | [], t, f => [(t, f [])]
  | (k, qs) :: rest, t, f =>
    if k = t then (k, f qs) :: rest else (k, qs) :: dictUpdate rest t f

/-- First-match lookup of the queue set at a topic (empty when absent),
mirroring `subscriptions[topic]` reads. -/
def dictEntry : List (List Char × List Nat) → List Char → List Nat
  | [], _ => []
  | (k, qs) :: rest, t => if k = t then qs else dictEntry rest t

/-- Whether the registry already holds an entry for `t`. -/
def dictHasKey : List (List Char × List Nat) → List Char → Bool
  | [], _ => false
  | (k, _) :: rest, t => if k = t then true else dictHasKey rest t

/-- Python `set.add`: sets are embedded as duplicate-free lists. -/
def setAdd (qs : List Nat) (q : Nat) : List Nat :=
  if q ∈ qs then qs else qs ++ [q]

/-- Python `set.remove` (guarded by membership in the source). -/
def setRemove (qs : List Nat) (q : Nat) : List Nat :=
  qs.filter (fun x => x ≠ q)

/-- One iteration of the in-memory backbone's `subscribe` loop body:
`subscriptions[topic].add(q)`. -/
def subscribeStep (s : List (List Char × List Nat)) (t : List Char) (q : Nat) :
    List (List Char × List Nat) :=
  dictUpdate s t (fun qs => setAdd qs q)

/-- One iteration of the in-memory backbone's `unsubscribe` loop body:
`if q in subscriptions[topic]: subscriptions[topic].remove(q)`. -/
def unsubStep (s : List (List Char × List Nat)) (t : List Char) (q : Nat) :
    List (List Char × List Nat) :=
  dictUpdate s t (fun qs => if q ∈ qs then setRemove qs q else qs)

/-- Embedding of the in-memory backbone's `subscribe(topics, q)`. -/
def inmem_subscribe (s : List (List Char × List Nat)) (topics : List (List Char))
    (q : Nat) : List (List Char × List Nat) :=
  topics.foldl (fun st t => subscribeStep st t q) s

/-- Embedding of the in-memory backbone's `unsubscribe(topics, q)`. -/
def inmem_unsubscribe (s : List (List Char × List Nat)) (topics : List (List Char))
    (q : Nat) : List (List Char × List Nat) :=
  topics.foldl (fun st t => unsubStep st t q) s

/-- `n` repetitions of `subscribe(topics, q)` with the same arguments. -/
def subscribeTimes : Nat → List (List Char × List Nat) → List (List Char) → Nat →
    List (List Char × List Nat)
  | 0, s, _, _ => s
  | n + 1, s, topics, q => inmem_subscribe (subscribeTimes n s topics q) topics q

/-- Observable actions of a RabbitMQ consumer callback, in program order. -/
inductive CallbackAction (μ : Type) where
  | logErr
  | provisionMsg (topic : List Char) (m : μ)
  | ackDelivery
deriving DecidableEq

/-- Embedding of `__decode(msg, decoder)`: the external JSON decoder either
yields a value or raises; on failure the source logs an error and returns
`None`.  Returns the decode result together with the logging actions. -/
def decodeStep {β μ : Type} (dec : β → Option μ) (body : β) :
    Option μ × List (CallbackAction μ) :=
  match dec body with
  | some m => (some m, [])
  | none => (none, [.logErr])

/-- Embedding of `__provision_intel(channel, method_frame, header_frame, body)`:
decode, provision on "threatbus/intel" only when decoding succeeded, then
acknowledge the delivery — always, and always last. -/
def provision_intel_callback {β μ : Type} (dec : β → Option μ) (body : β) :
    List (CallbackAction μ) :=
  match decodeStep dec body with
  | (some m, acts) => acts ++ [.provisionMsg (chars "threatbus/intel") m, .ackDelivery]
  | (none, acts) => acts ++ [.ackDelivery]

/-- The pattern string `[<path> = '<v>']` (a STIX-2 point-equality pattern). -/
def mkPointPattern (path v : List Char) : List Char :=
  '[' :: (path ++ (' ' :: '=' :: ' ' :: (quoted v ++ [']'])))

/-- The stix2patterns inspection of `mkPointPattern path v` for a single
point-equality comparison over one cybox object type. -/
def pointPatternData (objType : List Char) (path : List (List Char)) (v : List Char) :
    PatternData :=
  ⟨[(objType, [⟨path, chars "=", quoted v⟩])], [], []⟩

/-- An Indicator over `[url:value = '<v>']`. -/
def urlIndicator (created id v : List Char) : Indicator :=
  ⟨id, created, mkPointPattern (chars "url:value") v,
   pointPatternData (chars "url") [chars "value"] v, none⟩

/-- An Indicator over `[ipv4-addr:value = '<v>']`. -/
def addrIndicator (created id v : List Char) : Indicator :=
  ⟨id, created, mkPointPattern (chars "ipv4-addr:value") v,
   pointPatternData (chars "ipv4-addr") [chars "value"] v, none⟩

/-- The compound Indicator `[domain-name:value = 'evil.com' AND
domain-name:value = 'example.com']`: two equality comparisons over the
same object type within one observation, as inspected by the external
stix2patterns parser. -/
def compoundIndicator : Indicator :=
  ⟨chars "indicator--2", chars "2020-01-01",
   '[' :: (chars "domain-name:value" ++ (' ' :: '=' :: ' ' :: (quoted (chars "evil.com") ++
     (chars " AND domain-name:value" ++ (' ' :: '=' :: ' ' :: (quoted (chars "example.com") ++ [']'])))))),
   ⟨[(chars "domain-name",
      [⟨[chars "value"], chars "=", quoted (chars "evil.com")⟩,
       ⟨[chars "value"], chars "=", quoted (chars "example.com")⟩])], [], []⟩,
   none⟩

/-! ### Helper lemmas about the embedded Python string operations -/

theorem pysplit_no_sep (sep : Char) : ∀ s : List Char, sep ∉ s → pysplit sep s = [s] := by
  intro s
  induction s with
  | nil => intro h; rfl
  | cons c rest ih =>
    intro h
    have hc : ¬ c = sep := fun e => h (e ▸ List.mem_cons_self c rest)
    have hr : sep ∉ rest := fun m => h (List.mem_cons_of_mem c m)
    simp [pysplit, hc, ih hr]

theorem pysplit_one_sep (sep : Char) : ∀ a b : List Char, sep ∉ a → sep ∉ b →
    pysplit sep (a ++ sep :: b) = [a, b] := by
  intro a
  induction a with
  | nil =>
    intro b _ hb
    simp [pysplit, pysplit_no_sep sep b hb]
  | cons c a ih =>
    intro b ha hb
    have hc : ¬ c = sep := fun e => ha (e ▸ List.mem_cons_self c a)
    have ha2 : sep ∉ a := fun m => ha (List.mem_cons_of_mem c m)
    simp [pysplit, hc, ih b ha2 hb]

theorem pystartswith_self_append : ∀ p s : List Char, pystartswith p (p ++ s) = true := by
  intro p s
  induction p with
  | nil => rfl
  | cons c p ih => simp [pystartswith, ih]

theorem pystartswith_iff_exists : ∀ p s : List Char,
    pystartswith p s = true ↔ ∃ r, p ++ r = s := by
  intro p
  induction p with
  | nil => intro s; simp [pystartswith]
  | cons c p ih =>
    intro s
    cases s with
    | nil =>
      simp [pystartswith]
    | cons d s =>
      constructor
      · intro h
        by_cases hcd : c = d
        · subst hcd
          simp [pystartswith] at h
          obtain ⟨r, hr⟩ := (ih s).mp h
          exact ⟨r, by simp [hr]⟩
        · simp [pystartswith, hcd] at h
      · rintro ⟨r, hr⟩
        have hc : c = d := by
          have := congrArg (fun l => l.head?) hr
          simpa using this
        subst hc
        have hr2 : p ++ r = s := by
          simpa using hr
        simp [pystartswith]
        exact (ih s).mpr ⟨r, hr2⟩

theorem mem_of_pystartswith {p s : List Char} (h : pystartswith p s = true)
    {c : Char} (hc : c ∈ p) : c ∈ s := by
  obtain ⟨r, hr⟩ := (pystartswith_iff_exists p s).mp h
  subst hr
  exact List.mem_append_left r hc

theorem pystartswith_colon_false (ns s : List Char) (h : ':' ∉ s) :
    pystartswith (ns ++ chars "::") s = false := by
  cases hb : pystartswith (ns ++ chars "::") s with
  | false => rfl
  | true =>
    exact absurd (mem_of_pystartswith hb (by simp [chars])) h

theorem isspace_quoteChar : isspace quoteChar = false := rfl

theorem reverse_quoted (v : List Char) :
    (quoted v).reverse = quoteChar :: (v.reverse ++ [quoteChar]) := by
  simp [quoted]

theorem pystrip_space_quoted (v : List Char) : pystrip (' ' :: quoted v) = quoted v := by
  have h1 : (' ' :: quoted v).dropWhile isspace = quoted v := by
    simp [quoted, List.dropWhile_cons, isspace_quoteChar]
    rfl
  simp only [pystrip, h1, reverse_quoted]
  have h2 : (quoteChar :: (v.reverse ++ [quoteChar])).dropWhile isspace
      = quoteChar :: (v.reverse ++ [quoteChar]) := by
    simp [List.dropWhile_cons, isspace_quoteChar]
  rw [h2, ← reverse_quoted, List.reverse_reverse]

theorem unquote_quoted (v : List Char) : unquote (quoted v) = v := by
  have h1 : pystartswith [quoteChar] (quoted v) = true := by
    simp [quoted, pystartswith]
  have h2 : pyendswith [quoteChar] (quoted v) = true := by
    simp [pyendswith, reverse_quoted, pystartswith]
  have h3 : pyslice1m1 (quoted v) = v := by
    simp [pyslice1m1, quoted, List.dropLast_concat]
  simp [unquote, h1, h2, h3]

theorem pyslice1m1_mkPointPattern (path v : List Char) :
    pyslice1m1 (mkPointPattern path v) = (path ++ [' ']) ++ '=' :: (' ' :: quoted v) := by
  simp only [mkPointPattern, pyslice1m1, List.drop_succ_cons, List.drop_zero]
  have : path ++ (' ' :: '=' :: ' ' :: (quoted v ++ [']']))
      = (path ++ (' ' :: '=' :: ' ' :: quoted v)) ++ [']'] := by
    simp
  rw [this, List.dropLast_concat]
  simp

theorem pysplit_mkPointPattern (path v : List Char) (hp : '=' ∉ path) (hv : '=' ∉ v) :
    pysplit '=' (pyslice1m1 (mkPointPattern path v)) = [path ++ [' '], ' ' :: quoted v] := by
  rw [pyslice1m1_mkPointPattern]
  apply pysplit_one_sep
  · intro h
    rcases List.mem_append.mp h with h1 | h2
    · exact hp h1
    · simp at h2
  · intro h
    rcases List.mem_cons.mp h with h1 | h2
    · exact absurd h1.symm (by decide)
    · rcases List.mem_cons.mp h2 with h3 | h4
      · exact absurd h3.symm (by decide)
      · rcases List.mem_append.mp h4 with h5 | h6
        · exact hv h5
        · simp at h6
          exact absurd h6 (by decide)

theorem map_url_indicator (created id ns v : List Char) (hv : '=' ∉ v) :
    map_indicator_to_broker_event (urlIndicator created id v) ns =
      .ok (some ⟨ns ++ chars "::intel",
        [.str created, .str id, .str (chars "URL"), .str (stripScheme v),
         .str (chars "ADD")]⟩) := by
  have hpoint : is_point_equality_ioc (urlIndicator created id v).patternData = true := rfl
  have hstrip1 : pystrip (chars "url:value" ++ [' ']) = chars "url:value" := by decide
  have hdg : dictGet zeek_intel_type_map (chars "url:value") = some (chars "URL") := by decide
  simp only [map_indicator_to_broker_event, hpoint, if_true]
  have hpat : (urlIndicator created id v).pattern = mkPointPattern (chars "url:value") v := rfl
  rw [hpat, pysplit_mkPointPattern _ _ (by decide) hv]
  simp only [map_after_split, hstrip1, pystrip_space_quoted, unquote_quoted]
  simp only [mapPathValue, hdg, if_pos rfl]
  simp only [mkIntelEvent, zeekOperation]
  rfl

theorem map_addr_indicator (created id ns v : List Char) (hv : '=' ∉ v) :
    map_indicator_to_broker_event (addrIndicator created id v) ns =
      .ok (some ⟨ns ++ chars "::intel",
        [.str created, .str id,
         .str (if reSlash v = true then chars "SUBNET" else chars "ADDR"), .str v,
         .str (chars "ADD")]⟩) := by
  have hpoint : is_point_equality_ioc (addrIndicator created id v).patternData = true := rfl
  have hstrip1 : pystrip (chars "ipv4-addr:value" ++ [' ']) = chars "ipv4-addr:value" := by decide
  have hdg : dictGet zeek_intel_type_map (chars "ipv4-addr:value") = some (chars "ADDR") := by
    decide
  simp only [map_indicator_to_broker_event, hpoint, if_true]
  have hpat : (addrIndicator created id v).pattern
      = mkPointPattern (chars "ipv4-addr:value") v := rfl
  rw [hpat, pysplit_mkPointPattern _ _ (by decide) hv]
  simp only [map_after_split, hstrip1, pystrip_space_quoted, unquote_quoted]
  simp only [mapPathValue, hdg]
  rw [if_neg (by decide)]
  by_cases hs : reSlash v = true
  · rw [if_pos ⟨trivial, hs⟩, if_pos hs]
    simp only [mkIntelEvent, zeekOperation]
    rfl
  · rw [if_neg (fun hand => hs hand.2), if_neg hs]
    simp only [mkIntelEvent, zeekOperation]
    rfl

theorem stripScheme_http (w : List Char) : stripScheme (chars "http://" ++ w) = w := rfl

theorem stripScheme_https (w : List Char) : stripScheme (chars "https://" ++ w) = w := rfl

theorem stripScheme_no_scheme (w : List Char)
    (h1 : pystartswith (chars "http://") w = false)
    (h2 : pystartswith (chars "https://") w = false) : stripScheme w = w := by
  simp [stripScheme, h1, h2]

/-! ### Helper lemmas about the registry dictionaries -/

theorem dictGetNat_insert (s : List (List Char × Nat)) (t : List Char) (q : Nat) :
    dictGetNat (dictInsertNat s t q) t = some q := by
  induction s with
  | nil => simp [dictInsertNat, dictGetNat]
  | cons p rest ih =>
    by_cases h : p.1 = t
    · simp [dictInsertNat, dictGetNat, h]
    · simp [dictInsertNat, dictGetNat, h, ih]

theorem dictUpdate_twice (s : List (List Char × List Nat)) (t : List Char)
    (f g : List Nat → List Nat) :
    dictUpdate (dictUpdate s t f) t g = dictUpdate s t (fun x => g (f x)) := by
  induction s with
  | nil => simp [dictUpdate]
  | cons p rest ih =>
    by_cases h : p.1 = t
    · simp [dictUpdate, h]
    · simp [dictUpdate, h, ih]

theorem setAdd_idem (qs : List Nat) (q : Nat) : setAdd (setAdd qs q) q = setAdd qs q := by
  by_cases h : q ∈ qs
  · simp [setAdd, h]
  · simp [setAdd, h]

theorem subscribeStep_idem (s : List (List Char × List Nat)) (t : List Char) (q : Nat) :
    subscribeStep (subscribeStep s t q) t q = subscribeStep s t q := by
  simp [subscribeStep, dictUpdate_twice, setAdd_idem]

theorem not_mem_setRemove (qs : List Nat) (q : Nat) : q ∉ setRemove qs q := by
  simp [setRemove]

theorem unsubStep_establishes (s : List (List Char × List Nat)) (t : List Char) (q : Nat) :
    dictHasKey (unsubStep s t q) t = true ∧ q ∉ dictEntry (unsubStep s t q) t := by
  induction s with
  | nil =>
    simp [unsubStep, dictUpdate, dictHasKey, dictEntry]
  | cons p rest ih =>
    by_cases h : p.1 = t
    · refine ⟨by simp [unsubStep, dictUpdate, dictHasKey, h], ?_⟩
      by_cases hq : q ∈ p.2
      · simp [unsubStep, dictUpdate, dictEntry, h, hq, not_mem_setRemove]
      · simp [unsubStep, dictUpdate, dictEntry, h, hq]
    · have ih2 := ih
      refine ⟨?_, ?_⟩
      · simpa [unsubStep, dictUpdate, dictHasKey, h] using ih2.1
      · simpa [unsubStep, dictUpdate, dictEntry, h] using ih2.2

theorem unsubStep_preserves (s : List (List Char × List Nat)) (t t' : List Char) (q : Nat)
    (hk : dictHasKey s t = true) (hm : q ∉ dictEntry s t) :
    dictHasKey (unsubStep s t' q) t = true ∧ q ∉ dictEntry (unsubStep s t' q) t := by
  induction s with
  | nil => simp [dictHasKey] at hk
  | cons p rest ih =>
    obtain ⟨k, qs⟩ := p
    by_cases h : k = t
    · have hm2 : q ∉ qs := by simpa [dictEntry, h] using hm
      by_cases h' : k = t'
      · have htt : t = t' := h.symm.trans h'
        simp [unsubStep, dictUpdate, dictHasKey, dictEntry, h, h', htt, hm2]
      · have hne : ¬ t = t' := fun e => h' (h.trans e)
        simp [unsubStep, dictUpdate, dictHasKey, dictEntry, h, h', hne, hm2]
    · have hk2 : dictHasKey rest t = true := by simpa [dictHasKey, h] using hk
      have hm2 : q ∉ dictEntry rest t := by simpa [dictEntry, h] using hm
      by_cases h' : k = t'
      · have hne : ¬ t' = t := fun e => h (h'.trans e)
        constructor
        · simp [unsubStep, dictUpdate, dictHasKey, h, h', hne, hk2]
        · simp [unsubStep, dictUpdate, dictEntry, h, h', hne, hm2]
      · have ih2 := ih hk2 hm2
        constructor
        · simpa [unsubStep, dictUpdate, dictHasKey, h, h'] using ih2.1
        · simpa [unsubStep, dictUpdate, dictEntry, h, h'] using ih2.2

theorem unsubStep_fixed (s : List (List Char × List Nat)) (t : List Char) (q : Nat)
    (hk : dictHasKey s t = true) (hm : q ∉ dictEntry s t) : unsubStep s t q = s := by
  induction s with
  | nil => simp [dictHasKey] at hk
  | cons p rest ih =>
    obtain ⟨k, qs⟩ := p
    by_cases h : k = t
    · have hm2 : q ∉ qs := by simpa [dictEntry, h] using hm
      simp [unsubStep, dictUpdate, h, hm2]
    · have hk2 : dictHasKey rest t = true := by simpa [dictHasKey, h] using hk
      have hm2 : q ∉ dictEntry rest t := by simpa [dictEntry, h] using hm
      have := ih hk2 hm2
      simp only [unsubStep, dictUpdate] at this ⊢
      simp [h, this]

theorem inmem_unsubscribe_preserves (ts : List (List Char)) (s : List (List Char × List Nat))
    (t : List Char) (q : Nat) (hk : dictHasKey s t = true) (hm : q ∉ dictEntry s t) :
    dictHasKey (inmem_unsubscribe s ts q) t = true ∧
      q ∉ dictEntry (inmem_unsubscribe s ts q) t := by
  induction ts generalizing s with
  | nil => exact ⟨hk, hm⟩
  | cons t' ts ih =>
    have step := unsubStep_preserves s t t' q hk hm
    exact ih (unsubStep s t' q) step.1 step.2

theorem inmem_unsubscribe_post (ts : List (List Char)) (s : List (List Char × List Nat))
    (t : List Char) (q : Nat) (ht : t ∈ ts) :
    dictHasKey (inmem_unsubscribe s ts q) t = true ∧
      q ∉ dictEntry (inmem_unsubscribe s ts q) t := by
  induction ts generalizing s with
  | nil => cases ht
  | cons t' ts ih =>
    rcases List.mem_cons.mp ht with h | h
    · subst h
      have est := unsubStep_establishes s t q
      exact inmem_unsubscribe_preserves ts (unsubStep s t q) t q est.1 est.2
    · exact ih (unsubStep s t' q) h

theorem inmem_unsubscribe_fixed (ts : List (List Char)) (s : List (List Char × List Nat))
    (q : Nat)
    (h : ∀ t ∈ ts, dictHasKey s t = true ∧ q ∉ dictEntry s t) :
    inmem_unsubscribe s ts q = s := by
  induction ts with
  | nil => rfl
  | cons t' ts ih =>
    have h0 := h t' (List.mem_cons_self t' ts)
    have hstep : unsubStep s t' q = s := unsubStep_fixed s t' q h0.1 h0.2
    show inmem_unsubscribe (unsubStep s t' q) ts q = s
    rw [hstep]
    exact ih (fun t ht => h t (List.mem_cons_of_mem t' ht))

theorem inmem_unsubscribe_idem (s : List (List Char × List Nat)) (ts : List (List Char))
    (q : Nat) :
    inmem_unsubscribe (inmem_unsubscribe s ts q) ts q = inmem_unsubscribe s ts q :=
  inmem_unsubscribe_fixed ts (inmem_unsubscribe s ts q) q
    (fun t ht => inmem_unsubscribe_post ts s t q ht)

theorem count_provision_absent (s : List (List Char × List Nat)) (topic : List Char)
    (q : Nat) (h : ∀ p ∈ s, q ∉ p.2) :
    List.count q (provisionDeliveries s topic) = 0 := by
  induction s with
  | nil => rfl
  | cons p rest ih =>
    have h0 : q ∉ p.2 := h p (List.mem_cons_self p rest)
    have hrest := ih (fun p' hp' => h p' (List.mem_cons_of_mem p hp'))
    obtain ⟨k, qs⟩ := p
    by_cases hs : pystartswith k topic
    · simp [provisionDeliveries, hs, List.count_append, hrest, List.count_eq_zero.mpr h0]
    · simp [provisionDeliveries, hs, hrest]

theorem count_provision_subscribeStep (s : List (List Char × List Nat)) (t topic : List Char)
    (q : Nat) (h : ∀ p ∈ s, q ∉ p.2) :
    List.count q (provisionDeliveries (subscribeStep s t q) topic) =
      if pystartswith t topic = true then 1 else 0 := by
  induction s with
  | nil =>
    by_cases hs : pystartswith t topic
    · simp [subscribeStep, dictUpdate, provisionDeliveries, setAdd, hs]
    · simp [subscribeStep, dictUpdate, provisionDeliveries, setAdd, hs]
  | cons p rest ih =>
    obtain ⟨k, qs⟩ := p
    have h0 : q ∉ qs := h (k, qs) (List.mem_cons_self _ rest)
    have hrest : ∀ p ∈ rest, q ∉ p.2 := fun p' hp' => h p' (List.mem_cons_of_mem _ hp')
    by_cases hk : k = t
    · subst hk
      have hqs : setAdd qs q = qs ++ [q] := by simp [setAdd, h0]
      have hzero := count_provision_absent rest topic q hrest
      by_cases hs : pystartswith k topic
      · simp [subscribeStep, dictUpdate, provisionDeliveries, hs, hqs,
              List.count_append, hzero, List.count_eq_zero.mpr h0]
      · simp [subscribeStep, dictUpdate, provisionDeliveries, hs, hzero]
    · have hih := ih hrest
      simp only [subscribeStep] at hih
      by_cases hs : pystartswith k topic
      · simp [subscribeStep, dictUpdate, provisionDeliveries, hk, hs,
              List.count_append, List.count_eq_zero.mpr h0, hih]
      · simp [subscribeStep, dictUpdate, provisionDeliveries, hk, hs, hih]

theorem subscribeTimes_collapse (n : Nat) (s : List (List Char × List Nat))
    (t : List Char) (q : Nat) :
    subscribeTimes (n + 1) s [t] q = inmem_subscribe s [t] q := by
  induction n with
  | zero => rfl
  | succ n ih =>
    show inmem_subscribe (subscribeTimes (n + 1) s [t] q) [t] q = _
    rw [ih]
    show subscribeStep (subscribeStep s t q) t q = subscribeStep s t q
    exact subscribeStep_idem s t q

theorem stripName_prefixed (ns name : List Char) :
    stripName ns (adjustedNS ns ++ name) = name := by
  simp [stripName, pystartswith_self_append, List.drop_left]

theorem stripName_bare (ns name : List Char) (hns : ns ≠ []) (hcolon : ':' ∉ name) :
    stripName ns name = name := by
  have := pystartswith_colon_false ns name hcolon
  simp [stripName, adjustedNS, hns, this]

theorem rand_string_length (n : Nat) (g : Nat → Fin 26) : (rand_string n g).length = n := by
  simp [rand_string]

theorem rand_string_lowercase (n : Nat) (g : Nat → Fin 26) :
    ∀ c ∈ rand_string n g, c ∈ lowercaseLetters := by
  intro c hc
  simp only [rand_string, List.mem_map] at hc
  obtain ⟨i, _, rfl⟩ := hc
  have hlen : lowercaseLetters.length = 26 := rfl
  have hlt : (g i).val < lowercaseLetters.length := by
    rw [hlen]
    exact (g i).isLt
  rw [List.getD_eq_getElem _ _ hlt]
  exact List.getElem_mem hlt

theorem append_fresh_suffix_ne (t1 t2 s1 s2 : List Char)
    (h1 : s1.length = 10) (h2 : s2.length = 10) (hne : s1 ≠ s2) :
    t1 ++ s1 ≠ t2 ++ s2 := by
  intro he
  have hlen : t1.length = t2.length := by
    have := congrArg List.length he
    simp [List.length_append, h1, h2] at this
    omega
  obtain ⟨-, hs⟩ := List.append_inj he hlen
  exact hne hs

theorem mem_provisionDeliveries (subs : List (List Char × List Nat)) (topic : List Char)
    (q : Nat) :
    q ∈ provisionDeliveries subs topic ↔
      ∃ t qs, (t, qs) ∈ subs ∧ q ∈ qs ∧ pystartswith t topic = true := by
  induction subs with
  | nil => simp [provisionDeliveries]
  | cons p rest ih =>
    obtain ⟨k, qs⟩ := p
    by_cases hs : pystartswith k topic
    · constructor
      · intro h
        rcases List.mem_append.mp (by simpa [provisionDeliveries, hs] using h) with h1 | h2
        · exact ⟨k, qs, List.mem_cons_self _ _, h1, hs⟩
        · obtain ⟨t, qs', h3, h4, h5⟩ := ih.mp h2
          exact ⟨t, qs', List.mem_cons_of_mem _ h3, h4, h5⟩
      · rintro ⟨t, qs', hmem, hq, hsw⟩
        rcases List.mem_cons.mp hmem with heq | hrest
        · have ht : t = k := congrArg Prod.fst heq
          have hqs : qs' = qs := congrArg Prod.snd heq
          subst ht; subst hqs
          simp [provisionDeliveries, hs, List.mem_append]
          exact Or.inl hq
        · simp [provisionDeliveries, hs, List.mem_append]
          exact Or.inr (ih.mpr ⟨t, qs', hrest, hq, hsw⟩)
    · constructor
      · intro h
        obtain ⟨t, qs', h3, h4, h5⟩ := ih.mp (by simpa [provisionDeliveries, hs] using h)
        exact ⟨t, qs', List.mem_cons_of_mem _ h3, h4, h5⟩
      · rintro ⟨t, qs', hmem, hq, hsw⟩
        rcases List.mem_cons.mp hmem with heq | hrest
        · have ht : t = k := congrArg Prod.fst heq
          subst ht
          exact absurd hsw (by simpa using hs)
        · simpa [provisionDeliveries, hs] using ih.mpr ⟨t, qs', hrest, hq, hsw⟩

/-! ### Claim theorems -/

/-- C1 counterexample: the canonical topic for a Sighting is
`tenzir/threatbus/sighting` in the in-memory backbone and
`threatbus/sightings` in the RabbitMQ backbone — neither is the
`threatbus/sighting` stated in the claim. -/
theorem c1_canonical_topic_counterexample :
    inmemTopicOf MsgType.sighting ≠ chars "threatbus/sighting" ∧
    rabbitTopicOf MsgType.sighting ≠ chars "threatbus/sighting" := by
  constructor
  · decide
  · decide

/-- C1 (amended): the fan-out worker derives the canonical topic from the
message kind — in the in-memory backbone as `tenzir/threatbus/` followed by
the lowercased class name (so `tenzir/threatbus/intel` for Intel,
`tenzir/threatbus/sighting` for Sighting, etc.), and in the RabbitMQ
backbone as `threatbus/intel`, `threatbus/sightings`,
`threatbus/snapshotrequest`, `threatbus/snapshotenvelope` — and a message
is enqueued into a subscriber's queue if and only if some registry entry
holding that queue has an originating topic that is a byte-wise prefix of
the canonical topic (`startswith` being exactly prefix decomposition). -/
theorem c1_prefix_routing_amended :
    (∀ m : MsgType, inmemTopicOf m = chars "tenzir/threatbus/" ++ typeNameLower m) ∧
    inmemTopicOf MsgType.intel = chars "tenzir/threatbus/intel" ∧
    inmemTopicOf MsgType.sighting = chars "tenzir/threatbus/sighting" ∧
    inmemTopicOf MsgType.snapshotrequest = chars "tenzir/threatbus/snapshotrequest" ∧
    inmemTopicOf MsgType.snapshotenvelope = chars "tenzir/threatbus/snapshotenvelope" ∧
    rabbitTopicOf MsgType.intel = chars "threatbus/intel" ∧
    rabbitTopicOf MsgType.sighting = chars "threatbus/sightings" ∧
    rabbitTopicOf MsgType.snapshotrequest = chars "threatbus/snapshotrequest" ∧
    rabbitTopicOf MsgType.snapshotenvelope = chars "threatbus/snapshotenvelope" ∧
    (∀ (subs : List (List Char × List Nat)) (topic : List Char) (q : Nat),
      q ∈ provisionDeliveries subs topic ↔
        ∃ t qs, (t, qs) ∈ subs ∧ q ∈ qs ∧ pystartswith t topic = true) ∧
    (∀ p s : List Char, pystartswith p s = true ↔ ∃ r, p ++ r = s) :=
  ⟨fun _ => rfl, rfl, rfl, rfl, rfl, rfl, rfl, rfl, rfl,
   mem_provisionDeliveries, pystartswith_iff_exists⟩

/-- C2: evaluation of the translator at the point-equality indicator
`[url:value = 'a=b']` — whose value literal contains `=` — shows the
point-equality check passes but the translator raises `ValueError`
(`pattern[1:-1].split("=")` yields three pieces, and unpacking them into
two names fails), contradicting the claim that translators never raise. -/
theorem c2_translator_raises_on_eq_in_value :
    is_point_equality_ioc
        (urlIndicator (chars "2020-01-01") (chars "indicator--1") (chars "a=b")).patternData
      = true ∧
    map_indicator_to_broker_event
        (urlIndicator (chars "2020-01-01") (chars "indicator--1") (chars "a=b"))
        (chars "Zeek")
      = .error .valueError :=
  ⟨rfl, rfl⟩

/-- C3: the compound pattern `[domain-name:value = 'evil.com' AND
domain-name:value = 'example.com']` has two comparisons in its inspected
form, yet `is_point_equality_ioc` accepts it (it checks only the first
comparison of the first object type), and the translator then raises
`ValueError` on the three-way split instead of returning the unmappable
signal `None` as the claim states. -/
theorem c3_compound_same_type_accepted :
    is_point_equality_ioc compoundIndicator.patternData = true ∧
    map_indicator_to_broker_event compoundIndicator (chars "Zeek") = .error .valueError :=
  ⟨rfl, rfl⟩

/-- C4: unsubscribing twice with the same arguments equals unsubscribing
once (so the second call leaves the in-memory registry — and hence all
delivery behaviour — unchanged and raises nothing), and the Zeek adapter
ignores an Unsubscription naming an unknown p2p topic: the local map is
returned unchanged and no unsubscribe callback is invoked. -/
theorem c4_unsubscribe_idempotent :
    (∀ (s : List (List Char × List Nat)) (ts : List (List Char)) (q : Nat),
      inmem_unsubscribe (inmem_unsubscribe s ts q) ts q = inmem_unsubscribe s ts q) ∧
    (∀ (subs : List (List Char × Nat)) (task : UnsubscriptionMsg),
      dictGetNat subs task.topic = none →
      manage_subscription_unsub subs task = ⟨subs, none⟩) := by
  constructor
  · exact fun s ts q => inmem_unsubscribe_idem s ts q
  · intro subs task h
    simp [manage_subscription_unsub, h]

theorem c4_witness :
    dictGetNat [(chars "threatbus/intelabcdefghij", 5)] (chars "unknown-topic") = none ∧
    manage_subscription_unsub [(chars "threatbus/intelabcdefghij", 5)]
        ⟨chars "unknown-topic"⟩
      = ⟨[(chars "threatbus/intelabcdefghij", 5)], none⟩ :=
  ⟨by decide, c4_unsubscribe_idempotent.2 _ ⟨chars "unknown-topic"⟩ (by decide)⟩

/-- C5: a RabbitMQ intel-consumer delivery whose body fails to decode is
logged and acknowledged with no provision into the dispatch core, and a
successfully decoded delivery is provisioned on `threatbus/intel` and is
acknowledged only afterwards (the acknowledgment is the last action in
program order in both cases). -/
theorem c5_poison_delivery_acked {β μ : Type} (dec : β → Option μ) (body : β) :
    (dec body = none →
      provision_intel_callback dec body = [.logErr, .ackDelivery]) ∧
    (∀ m, dec body = some m →
      provision_intel_callback dec body =
        [.provisionMsg (chars "threatbus/intel") m, .ackDelivery]) := by
  constructor
  · intro h
    simp [provision_intel_callback, decodeStep, h]
  · intro m h
    simp [provision_intel_callback, decodeStep, h]

theorem c5_witness :
    ((fun n : Nat => if n = 0 then (none : Option Nat) else some n) 0 = none) ∧
    provision_intel_callback (fun n : Nat => if n = 0 then (none : Option Nat) else some n) 0
      = [.logErr, .ackDelivery] ∧
    ((fun n : Nat => if n = 0 then (none : Option Nat) else some n) 1 = some 1) ∧
    provision_intel_callback (fun n : Nat => if n = 0 then (none : Option Nat) else some n) 1
      = [.provisionMsg (chars "threatbus/intel") 1, .ackDelivery] :=
  ⟨rfl,
   (c5_poison_delivery_acked (fun n : Nat => if n = 0 then none else some n) 0).1 rfl,
   rfl,
   (c5_poison_delivery_acked (fun n : Nat => if n = 0 then none else some n) 1).2 1 rfl⟩

/-- C6: an accepted Subscription yields the p2p topic `task.topic`
followed by the drawn suffix; the suffix has length 10 and consists of
lowercase letters; the acknowledgment event carries exactly that p2p
topic; the adapter's local map maps that p2p topic to the fresh queue;
and appending distinct fresh 10-character suffixes can never produce
equal p2p topics, so fresh draws keep live p2p topics unique. -/
theorem c6_p2p_topic_shape (ns : List Char) (subs : List (List Char × Nat))
    (task : SubscriptionMsg) (g : Nat → Fin 26) (newq : Nat) :
    (manage_subscription_sub ns subs task g newq).p2p_topic
      = task.topic ++ rand_string 10 g ∧
    (rand_string 10 g).length = 10 ∧
    (∀ c ∈ rand_string 10 g, c ∈ lowercaseLetters) ∧
    (manage_subscription_sub ns subs task g newq).ack
      = ⟨ns ++ chars "::subscription_acknowledged",
         [.str ((manage_subscription_sub ns subs task g newq).p2p_topic)]⟩ ∧
    dictGetNat (manage_subscription_sub ns subs task g newq).subs
        ((manage_subscription_sub ns subs task g newq).p2p_topic) = some newq ∧
    (∀ t1 t2 s1 s2 : List Char,
      s1.length = 10 → s2.length = 10 → s1 ≠ s2 → t1 ++ s1 ≠ t2 ++ s2) :=
  ⟨rfl, rand_string_length 10 g, rand_string_lowercase 10 g, rfl,
   dictGetNat_insert subs (task.topic ++ rand_string 10 g) newq,
   append_fresh_suffix_ne⟩

theorem c6_witness :
    'a' ∈ rand_string 10 (fun _ => (0 : Fin 26)) ∧
    'a' ∈ lowercaseLetters ∧
    (chars "aaaaaaaaaa").length = 10 ∧
    (chars "bbbbbbbbbb").length = 10 ∧
    chars "aaaaaaaaaa" ≠ chars "bbbbbbbbbb" ∧
    chars "threatbus/intel" ++ chars "aaaaaaaaaa"
      ≠ chars "threatbus/intel" ++ chars "bbbbbbbbbb" :=
  ⟨by decide, (c6_p2p_topic_shape [] [] ⟨chars "threatbus/intel", 0⟩ (fun _ => 0) 7).2.2.1
      'a' (by decide),
   by decide, by decide, by decide,
   (c6_p2p_topic_shape [] [] ⟨chars "threatbus/intel", 0⟩ (fun _ => 0) 7).2.2.2.2.2
      (chars "threatbus/intel") (chars "threatbus/intel")
      (chars "aaaaaaaaaa") (chars "bbbbbbbbbb") (by decide) (by decide) (by decide)⟩

/-- C7: for every point-equality Indicator over `url:value` (value free of
`=`), the translator emits tag URL with the value's single leading
`http://` or `https://` prefix removed — `stripScheme` removes exactly one
leading scheme, is the identity when no scheme leads the value, removes at
most one scheme when several are stacked, is case-sensitive, and maps
`https://evil.example/` to `evil.example/`. -/
theorem c7_url_scheme_stripping (created id ns v : List Char) (hv : '=' ∉ v) :
    map_indicator_to_broker_event (urlIndicator created id v) ns =
      .ok (some ⟨ns ++ chars "::intel",
        [.str created, .str id, .str (chars "URL"), .str (stripScheme v),
         .str (chars "ADD")]⟩) ∧
    (∀ w, stripScheme (chars "http://" ++ w) = w) ∧
    (∀ w, stripScheme (chars "https://" ++ w) = w) ∧
    (∀ w, pystartswith (chars "http://") w = false →
      pystartswith (chars "https://") w = false → stripScheme w = w) ∧
    stripScheme (chars "https://evil.example/") = chars "evil.example/" ∧
    stripScheme (chars "https://https://x") = chars "https://x" ∧
    stripScheme (chars "HTTPS://x") = chars "HTTPS://x" :=
  ⟨map_url_indicator created id ns v hv, stripScheme_http, stripScheme_https,
   stripScheme_no_scheme, rfl, rfl, rfl⟩

theorem c7_witness :
    '=' ∉ chars "https://evil.example/" ∧
    map_indicator_to_broker_event
        (urlIndicator (chars "2020-01-01") (chars "indicator--7")
          (chars "https://evil.example/"))
        (chars "Zeek")
      = .ok (some ⟨chars "Zeek::intel",
          [.str (chars "2020-01-01"), .str (chars "indicator--7"),
           .str (chars "URL"), .str (chars "evil.example/"),
           .str (chars "ADD")]⟩) :=
  ⟨by decide,
   by
     rw [(c7_url_scheme_stripping (chars "2020-01-01") (chars "indicator--7")
       (chars "Zeek") (chars "https://evil.example/") (by decide)).1]
     rfl⟩

/-- C8: for every point-equality Indicator over `ipv4-addr:value` (value
free of `=`), the translator emits tag SUBNET exactly when the value
matches the anchored regex `.+/.+` (embedded as `reSlash`) and tag ADDR
otherwise, leaving the value itself untouched; in particular
`10.0.0.0/8` matches and is emitted as SUBNET. -/
theorem c8_addr_subnet_elevation (created id ns v : List Char) (hv : '=' ∉ v) :
    map_indicator_to_broker_event (addrIndicator created id v) ns =
      .ok (some ⟨ns ++ chars "::intel",
        [.str created, .str id,
         .str (if reSlash v = true then chars "SUBNET" else chars "ADDR"), .str v,
         .str (chars "ADD")]⟩) ∧
    reSlash (chars "10.0.0.0/8") = true ∧
    map_indicator_to_broker_event (addrIndicator created id (chars "10.0.0.0/8")) ns =
      .ok (some ⟨ns ++ chars "::intel",
        [.str created, .str id, .str (chars "SUBNET"), .str (chars "10.0.0.0/8"),
         .str (chars "ADD")]⟩) := by
  refine ⟨map_addr_indicator created id ns v hv, by decide, ?_⟩
  rw [map_addr_indicator created id ns (chars "10.0.0.0/8") (by decide)]
  rfl

theorem c8_witness :
    '=' ∉ chars "10.0.0.0/8" ∧
    map_indicator_to_broker_event
        (addrIndicator (chars "2020-01-01") (chars "indicator--8") (chars "10.0.0.0/8"))
        (chars "Zeek")
      = .ok (some ⟨chars "Zeek::intel",
          [.str (chars "2020-01-01"), .str (chars "indicator--8"),
           .str (chars "SUBNET"), .str (chars "10.0.0.0/8"),
           .str (chars "ADD")]⟩) :=
  ⟨by decide,
   (c8_addr_subnet_elevation (chars "2020-01-01") (chars "indicator--8")
     (chars "Zeek") (chars "10.0.0.0/8") (by decide)).2.2⟩

/-- C9: with a non-empty module namespace, a bare `subscribe` or
`unsubscribe` event name (carrying no `NS::` prefix) is dispatched exactly
as the prefixed name would be; a bare `subscribe` with two arguments and a
truthy topic yields a Subscription, a bare `unsubscribe` with one truthy
topic argument yields an Unsubscription, and any event that maps to
something has `subscribe` or `unsubscribe` as its name after the
conditional prefix stripping. -/
theorem c9_lenient_namespace_stripping (ns : List Char) (hns : ns ≠ []) :
    (∀ args : List BrokerVal,
      map_management_message ⟨chars "subscribe", args⟩ ns
        = map_management_message ⟨ns ++ chars "::" ++ chars "subscribe", args⟩ ns ∧
      map_management_message ⟨chars "unsubscribe", args⟩ ns
        = map_management_message ⟨ns ++ chars "::" ++ chars "unsubscribe", args⟩ ns) ∧
    (∀ topicArg snapArg : BrokerVal, truthy topicArg = true →
      map_management_message ⟨chars "subscribe", [topicArg, snapArg]⟩ ns
        = some (.sub topicArg snapArg)) ∧
    (∀ topicArg : BrokerVal, truthy topicArg = true →
      map_management_message ⟨chars "unsubscribe", [topicArg]⟩ ns
        = some (.unsub topicArg)) ∧
    (∀ (ev : ZeekEvent) (m : MgmtMsg), map_management_message ev ns = some m →
      stripName ns ev.name = chars "subscribe" ∨
      stripName ns ev.name = chars "unsubscribe") := by
  have hsub : stripName ns (chars "subscribe") = chars "subscribe" :=
    stripName_bare ns _ hns (by decide)
  have hunsub : stripName ns (chars "unsubscribe") = chars "unsubscribe" :=
    stripName_bare ns _ hns (by decide)
  have hadj : ∀ w : List Char, ns ++ chars "::" ++ w = adjustedNS ns ++ w := by
    intro w
    simp [adjustedNS, hns]
  have hsub2 : stripName ns (ns ++ chars "::" ++ chars "subscribe") = chars "subscribe" := by
    rw [hadj, stripName_prefixed]
  have hunsub2 : stripName ns (ns ++ chars "::" ++ chars "unsubscribe")
      = chars "unsubscribe" := by
    rw [hadj, stripName_prefixed]
  refine ⟨fun args => ⟨?_, ?_⟩, ?_, ?_, ?_⟩
  · simp only [map_management_message, hsub, hsub2]
  · simp only [map_management_message, hunsub, hunsub2]
  · intro topicArg snapArg ht
    simp [map_management_message, hsub, ht]
  · intro topicArg ht
    simp [map_management_message, hunsub, ht]
  · intro ev m h
    by_cases h1 : stripName ns ev.name = chars "subscribe"
    · exact Or.inl h1
    · by_cases h2 : stripName ns ev.name = chars "unsubscribe"
      · exact Or.inr h2
      · simp [map_management_message, h1, h2] at h

theorem c9_witness :
    (chars "Tenzir" ≠ ([] : List Char)) ∧
    truthy (.str (chars "threatbus/intel")) = true ∧
    map_management_message
        ⟨chars "subscribe", [.str (chars "threatbus/intel"), .count 0]⟩ (chars "Tenzir")
      = some (.sub (.str (chars "threatbus/intel")) (.count 0)) :=
  ⟨by decide, rfl,
   (c9_lenient_namespace_stripping (chars "Tenzir") (by decide)).2.1
     (.str (chars "threatbus/intel")) (.count 0) rfl⟩

/-- C10: subscribing the same (topic, queue) pair twice leaves the
in-memory registry exactly as one subscribe does, and — for a queue not
yet present anywhere in the registry — provisioning a message after any
positive number of identical subscribe calls enqueues it into that queue
exactly once when the topic is a prefix of the message's canonical topic
and zero times otherwise, the same as after a single subscribe. -/
theorem c10_subscribe_idempotent (s : List (List Char × List Nat)) (t topic : List Char)
    (q : Nat) (n : Nat) :
    inmem_subscribe (inmem_subscribe s [t] q) [t] q = inmem_subscribe s [t] q ∧
    ((∀ p ∈ s, q ∉ p.2) →
      List.count q (provisionDeliveries (subscribeTimes (n + 1) s [t] q) topic) =
        if pystartswith t topic = true then 1 else 0) := by
  constructor
  · exact subscribeStep_idem s t q
  · intro h
    rw [subscribeTimes_collapse]
    exact count_provision_subscribeStep s t topic q h

theorem c10_witness :
    (∀ p ∈ ([] : List (List Char × List Nat)), 3 ∉ p.2) ∧
    List.count 3
        (provisionDeliveries (subscribeTimes 2 [] [chars "tenzir/threatbus/"] 3)
          (chars "tenzir/threatbus/intel"))
      = if pystartswith (chars "tenzir/threatbus/") (chars "tenzir/threatbus/intel") = true
        then 1 else 0 :=
  ⟨by simp,
   (c10_subscribe_idempotent [] (chars "tenzir/threatbus/")
     (chars "tenzir/threatbus/intel") 3 1).2 (by simp)⟩
